import Mathlib

/-!
Formal model of the blockchess-ws-server transaction dispatcher.

The definitions below are shallow embeddings of the TypeScript sources:
`src/services/database.ts`, `src/services/queue-service.ts`,
`src/services/reward-service.ts`, `src/services/sui-client.ts`,
`src/services/transaction-processor.ts`, and the zod schemas in
`src/utils/validation.ts`.  The PostgreSQL queue table is modelled as a
`List QueueRow` in insertion order; SQL statements become pure list
operations; JavaScript truthiness and SQL NULL-equality are modelled
explicitly.  Definitions whose name starts with `spec` are written from the
specification text and are only used to compare against the code model.
-/

/-! ## JavaScript string primitives (modelled over `List Char`) -/

/-- JS `String.prototype.includes` (substring containment). -/
def jsIncludes (s pat : String) : Bool :=
  (List.range (s.data.length + 1)).any fun i => pat.data.isPrefixOf (s.data.drop i)

/-- JS `String.prototype.endsWith`. -/
def jsEndsWith (s pat : String) : Bool :=
  pat.data.isSuffixOf s.data

/-- JS `String.prototype.startsWith`. -/
def jsStartsWith (s pat : String) : Bool :=
  pat.data.isPrefixOf s.data

/-- JS `String.prototype.toLowerCase` (ASCII, which is all the code compares). -/
def jsToLower (s : String) : String :=
  ⟨s.data.map Char.toLower⟩

/-- JS `String.prototype.trim`. -/
def jsTrim (s : String) : String :=
  ⟨((s.data.dropWhile Char.isWhitespace).reverse.dropWhile Char.isWhitespace).reverse⟩

/-- JS `s.slice(n)`: drop the first `n` characters. -/
def jsSlice (s : String) (n : Nat) : String :=
  ⟨s.data.drop n⟩

/-- Number of maximal non-whitespace runs in a character list. -/
def wordRuns : List Char → Bool → Nat
  | [], _ => 0
  | c :: cs, inWord =>
    if c.isWhitespace then wordRuns cs false
    else if inWord then wordRuns cs true else wordRuns cs true + 1

/-- JS `s.split(/\s+/).length`: for the empty string JS returns `[""]`
(length 1), otherwise the number of whitespace-separated words. -/
def jsSplitWsCount (s : String) : Nat :=
  if s.data.isEmpty then 1 else wordRuns s.data false

/-- JS truthiness of a nullable string: `null`/`undefined` and `""` are falsy. -/
def jsTruthy : Option String → Bool
  | none => false
  | some s => !s.isEmpty

/-- JS `x || null` on a nullable string: empty string collapses to null. -/
def jsOrNull : Option String → Option String
  | none => none
  | some s => if s.isEmpty then none else some s

/-- SQL equality `col = $1` under three-valued logic: a NULL on either side
makes the predicate not-true, so the row is filtered out. -/
def sqlStrEq : Option String → Option String → Bool
  | some a, some b => a == b
  | _, _ => false

/-! ## Queue data model (`transaction_queue` table, `src/types/index.ts`) -/

inductive TransactionType where
  | create_game
  | make_move
  | end_game
  | mint_nft
deriving DecidableEq

inductive TransactionStatus where
  | pending
  | processing
  | completed
  | failed
  | waiting_for_object_id
deriving DecidableEq

/-- The JSONB `transaction_data` column.  Only the fields the queue logic
inspects are modelled; an absent JSON key is `none`. -/
structure TransactionData where
  badgeType : Option String
  gameObjectId : Option String
  name : Option String
  gameId : Option String
deriving DecidableEq

/-- One row of `transaction_queue`.  `created_at` is a logical timestamp. -/
structure QueueRow where
  id : String
  transaction_type : TransactionType
  player_sui_address : Option String
  game_id : Option String
  player_id : Option String
  status : TransactionStatus
  transaction_data : TransactionData
  error_message : Option String
  created_at : Nat
  retries : Nat
deriving DecidableEq

/-! ## Store operations (`src/services/database.ts`) -/

/-- SQL `ORDER BY created_at ASC LIMIT 1`: the earliest-inserted row among those
with minimal `created_at` (ties keep the earlier list element). -/
def pickOldest : List QueueRow → Option QueueRow
  | [] => none
  | r :: rs =>
    match pickOldest rs with
    | none => some r
    | some b => if b.created_at < r.created_at then some b else some r

/-- Source `getNextPendingTransaction` (database.ts lines 133-165): a single
`SELECT * FROM transaction_queue WHERE status = pending AND
player_sui_address = $1 ORDER BY created_at ASC LIMIT 1 FOR UPDATE SKIP
LOCKED`.  The statement reads; it performs no UPDATE. -/
def getNextPendingTransaction (q : List QueueRow) (addr : Option String) :
    Option QueueRow :=
  pickOldest (q.filter fun r =>
    r.status == TransactionStatus.pending && sqlStrEq r.player_sui_address addr)

/-- The full observable effect of one `getNextPendingTransaction` call:
the selected row together with the queue state after the call.  The call
issues only the SELECT above, so the state is returned unchanged. -/
def claimNextOp (q : List QueueRow) (addr : Option String) :
    Option QueueRow × List QueueRow :=
  (getNextPendingTransaction q addr, q)

/-- Source `updateTransactionStatus` (database.ts lines 167-190): sets `status`,
and `error_message` only when a truthy message is passed. -/
def updateTransactionStatus (q : List QueueRow) (id : String)
    (st : TransactionStatus) (errMsg : Option String) : List QueueRow :=
  q.map fun r =>
    if r.id == id then
      { r with
        status := st
        error_message := if jsTruthy errMsg then errMsg else r.error_message }
    else r

/-- Source `incrementRetries` (database.ts lines 192-201). -/
def incrementRetries (q : List QueueRow) (id : String) : List QueueRow :=
  q.map fun r => if r.id == id then { r with retries := r.retries + 1 } else r

/-- Source `deleteTransaction` (database.ts lines 252-265). -/
def deleteTransaction (q : List QueueRow) (id : String) : List QueueRow :=
  q.filter fun r => !(r.id == id)

/-- Source `addToQueue` (database.ts lines 93-131).  The mint_nft duplicate
pre-check runs only when `transactionType === mint_nft &&
playerSuiAddress && playerId` and `transactionData.badgeType` are all
truthy; otherwise the row is inserted.  A clash on the primary key `id`
makes the INSERT fail. -/
def addToQueue (q : List QueueRow) (now : Nat) (id : String)
    (ty : TransactionType) (addr : Option String) (data : TransactionData)
    (gameId : Option String) (playerId : Option String) :
    Except String (List QueueRow) :=
  let dup : Bool :=
    ty == TransactionType.mint_nft && jsTruthy addr && jsTruthy playerId &&
    jsTruthy data.badgeType &&
    q.any fun r =>
      r.transaction_type == TransactionType.mint_nft &&
      sqlStrEq r.player_sui_address addr &&
      sqlStrEq r.player_id playerId &&
      sqlStrEq r.transaction_data.badgeType data.badgeType &&
      (r.status == TransactionStatus.pending ||
       r.status == TransactionStatus.processing ||
       r.status == TransactionStatus.completed)
  if dup then Except.ok q
  else if q.any (fun r => r.id == id) then
    Except.error ("duplicate key value violates unique constraint")
  else
    Except.ok (q ++ [⟨id, ty, addr, jsOrNull gameId, jsOrNull playerId,
      TransactionStatus.pending, data, none, now, 0⟩])

/-! ## Helper lemmas about the queue operations -/

theorem pickOldest_mem : ∀ {l : List QueueRow} {r : QueueRow},
    pickOldest l = some r → r ∈ l := by
  intro l
  induction l with
  | nil => intro r h; simp [pickOldest] at h
  | cons a as ih =>
    intro r h
    simp only [pickOldest] at h
    split at h
    · simp only [Option.some.injEq] at h
      rw [← h]; exact List.mem_cons_self _ _
    · rename_i b hb
      split at h <;> simp only [Option.some.injEq] at h
      · exact List.mem_cons_of_mem _ (h ▸ ih hb)
      · rw [← h]; exact List.mem_cons_self _ _

theorem pickOldest_eq_none {l : List QueueRow} :
    pickOldest l = none ↔ l = [] := by
  cases l with
  | nil => simp [pickOldest]
  | cons a as =>
    simp only [pickOldest]
    constructor
    · intro h
      exfalso
      split at h
      · simp at h
      · split at h <;> simp at h
    · intro h; simp at h

theorem pickOldest_min : ∀ (l : List QueueRow) (r : QueueRow),
    pickOldest l = some r → ∀ r' ∈ l, r.created_at ≤ r'.created_at := by
  intro l
  induction l with
  | nil => intro r h; simp [pickOldest] at h
  | cons a as ih =>
    intro r h r' hr'
    simp only [pickOldest] at h
    split at h
    · rename_i hb
      simp only [Option.some.injEq] at h
      have hnil : as = [] := pickOldest_eq_none.mp hb
      subst hnil
      simp only [List.mem_singleton] at hr'
      rw [hr', h]
    · rename_i b hb
      split at h <;> simp only [Option.some.injEq] at h
      · rename_i hlt
        rcases List.mem_cons.mp hr' with h1 | h1
        · have h2 := h ▸ hlt; rw [h1]; omega
        · exact h ▸ ih b hb r' h1
      · rename_i hlt
        rcases List.mem_cons.mp hr' with h1 | h1
        · rw [h1, ← h]
        · have h2 := ih b hb r' h1
          rw [← h]
          omega

theorem getNextPendingTransaction_some {q : List QueueRow}
    {addr : Option String} {r : QueueRow}
    (h : getNextPendingTransaction q addr = some r) :
    r ∈ q ∧ r.status = TransactionStatus.pending ∧
    sqlStrEq r.player_sui_address addr = true := by
  have hm := pickOldest_mem h
  have hf := List.of_mem_filter hm
  simp only [Bool.and_eq_true, beq_iff_eq] at hf
  exact ⟨List.mem_of_mem_filter hm, hf.1, hf.2⟩

theorem sqlStrEq_none_left (b : Option String) : sqlStrEq none b = false := by
  cases b <;> rfl

theorem sqlStrEq_isSome_left {a b : Option String}
    (h : sqlStrEq a b = true) : a.isSome := by
  cases a with
  | none => rw [sqlStrEq_none_left] at h; exact absurd h (by simp)
  | some x => rfl

/-! ## Emitted socket events -/

inductive Emitted where
  | processing (room txId : String)
  | resultSuccess (room txId digest : String)
      (objectId rewardName badgeType : Option String)
  | resultError (room txId errMsg : String)
  | queued (txId status : String)
  | socketError (msg : String)
deriving DecidableEq

/-! ## Dispatcher (`src/services/queue-service.ts`) -/

structure QueueConfig where
  maxRetries : Nat
  retryDelayMs : Nat
deriving DecidableEq

/-- queue-service.ts lines 192-196: `mint_nft` errors whose lowercased
message contains one of the four duplicate phrases. -/
def isNftAlreadyExistsErr (ty : TransactionType) (msg : String) : Bool :=
  ty == TransactionType.mint_nft &&
  (jsIncludes (jsToLower msg) "already exists" ||
   jsIncludes (jsToLower msg) "already minted" ||
   jsIncludes (jsToLower msg) "duplicate" ||
   jsIncludes (jsToLower msg) "already locked")

/-- queue-service.ts lines 199-201: the version-mismatch classifier used
for suppressing the user-facing error event. -/
def isVersionMismatchErr (msg : String) : Bool :=
  jsIncludes msg ("is not available for consumption") ||
  jsIncludes msg ("current version") ||
  jsIncludes msg ("non-retriable")

/-- queue-service.ts lines 241-242: the version-mismatch classifier used
for the retry backoff.  Note that, unlike the suppression classifier, it
does NOT look for "non-retriable". -/
def isVersionMismatchBackoffErr (msg : String) : Bool :=
  jsIncludes msg ("is not available for consumption") ||
  jsIncludes msg ("current version")

/-- The catch-branch of `processPlayerQueue` (queue-service.ts lines
165-256): increment retries; at the retry cap mark failed, emit the error
event unless suppressed, and delete non-NFT rows; below the cap requeue as
pending and compute the backoff sleep.  Returns the new queue state, the
emitted events, and the sleep duration in ms (if any). -/
def handleFailure (cfg : QueueConfig) (playerAddress : String)
    (q : List QueueRow) (t : QueueRow) (msg : String) :
    List QueueRow × List Emitted × Option Nat :=
  let q1 := incrementRetries q t.id
  let retries := t.retries + 1
  if retries ≥ cfg.maxRetries then
    let q2 := updateTransactionStatus q1 t.id TransactionStatus.failed (some msg)
    let events :=
      if !isNftAlreadyExistsErr t.transaction_type msg &&
         !isVersionMismatchErr msg then
        [Emitted.resultError ("player:" ++ playerAddress) t.id msg]
      else []
    let q3 :=
      if t.transaction_type != TransactionType.mint_nft then
        deleteTransaction q2 t.id
      else q2
    (q3, events, none)
  else
    let q2 := updateTransactionStatus q1 t.id TransactionStatus.pending (some msg)
    let baseDelay :=
      if isVersionMismatchBackoffErr msg &&
         t.transaction_type == TransactionType.mint_nft then 2000
      else cfg.retryDelayMs
    (q2, [], some (baseDelay * retries))

/-- One iteration of the `while (true)` loop of `processPlayerQueue`
(queue-service.ts lines 128-257).  The result of `processTransaction` is
abstracted as `outcome`; its own events are modelled separately. -/
def processOnce (cfg : QueueConfig) (q : List QueueRow)
    (playerAddress : String) (outcome : Except String Unit) :
    List QueueRow × List Emitted × Option Nat :=
  match getNextPendingTransaction q (jsOrNull (some playerAddress)) with
  | none => (q, [], none)
  | some t =>
    let q1 := updateTransactionStatus q t.id TransactionStatus.processing none
    let evs0 := [Emitted.processing ("player:" ++ playerAddress) t.id]
    match outcome with
    | Except.ok _ =>
      let q2 := updateTransactionStatus q1 t.id TransactionStatus.completed none
      (deleteTransaction q2 t.id, evs0, none)
    | Except.error msg =>
      let res := handleFailure cfg playerAddress q1 t msg
      (res.1, evs0 ++ res.2.1, res.2.2)

/-- Source `getAllPlayersWithPendingTransactions` (queue-service.ts lines 88-105):
distinct non-NULL addresses owning a pending row, ordered by their oldest
pending `created_at`, limited to 100. -/
def minPendingCreatedAt (q : List QueueRow) (a : String) : Nat :=
  (((q.filter fun r =>
      r.status == TransactionStatus.pending &&
      r.player_sui_address == some a).map
    (fun r => r.created_at)).min?).getD 0

def getAllPlayersWithPendingTransactions (q : List QueueRow) : List String :=
  let addrs :=
    ((q.filter fun r => r.status == TransactionStatus.pending).filterMap
      (fun r => r.player_sui_address)).dedup
  ((addrs.insertionSort fun a b =>
      minPendingCreatedAt q a ≤ minPendingCreatedAt q b).take 100)

/-! ## Concrete fixtures shared inside single claims -/

def dataEmpty : TransactionData := ⟨none, none, none, none⟩

def rowOldA : QueueRow :=
  ⟨"t1", TransactionType.create_game, some ("0xA"), none, none,
   TransactionStatus.pending, dataEmpty, none, 5, 0⟩

def rowOldB : QueueRow :=
  ⟨"t2", TransactionType.make_move, some ("0xA"), none, none,
   TransactionStatus.pending, dataEmpty, none, 2, 0⟩

/-- Claim C1, counterexample: `getNextPendingTransaction` issues a single
SELECT and does not transition the selected row to `processing` in the same
operation — on a queue holding one pending row for `0xA`, the call returns
the row while the queue state after the call still holds it as `pending`. -/
theorem getNextPendingTransaction_not_atomic :
    ¬ (∀ (q : List QueueRow) (addr : Option String) (r : QueueRow),
        (claimNextOp q addr).1 = some r →
        ∀ r' ∈ (claimNextOp q addr).2, r'.id = r.id →
          r'.status = TransactionStatus.processing) := by
  intro h
  have hx := h [rowOldB] (some ("0xA")) rowOldB (by decide) rowOldB
    (by decide) (by decide)
  exact absurd hx (by decide)

/-- Claim C1 (amended): `getNextPendingTransaction` returns the oldest
pending row for the given actor (none when no pending row matches) and
leaves the queue unchanged; the transition to `processing` is issued
separately by `processPlayerQueue`. -/
theorem claim_next_selects_oldest_pending (q : List QueueRow)
    (addr : Option String) :
    ((claimNextOp q addr).1 = none ↔
      ∀ r ∈ q, ¬(r.status = TransactionStatus.pending ∧
        sqlStrEq r.player_sui_address addr = true))
    ∧ (∀ r, (claimNextOp q addr).1 = some r →
        r ∈ q ∧ r.status = TransactionStatus.pending ∧
        sqlStrEq r.player_sui_address addr = true ∧
        (∀ r' ∈ q, r'.status = TransactionStatus.pending →
          sqlStrEq r'.player_sui_address addr = true →
          r.created_at ≤ r'.created_at))
    ∧ (claimNextOp q addr).2 = q := by
  refine ⟨?_, ?_, rfl⟩
  · show getNextPendingTransaction q addr = none ↔ _
    unfold getNextPendingTransaction
    rw [pickOldest_eq_none, List.filter_eq_nil_iff]
    constructor
    · intro h r hr hc
      exact h r hr (by simp [hc.1, hc.2])
    · intro h r hr hc
      simp only [Bool.and_eq_true, beq_iff_eq] at hc
      exact h r hr ⟨hc.1, hc.2⟩
  · intro r hr
    have h1 := getNextPendingTransaction_some hr
    refine ⟨h1.1, h1.2.1, h1.2.2, ?_⟩
    intro r' hr' hst hsql
    have hmem : r' ∈ q.filter (fun r =>
        r.status == TransactionStatus.pending &&
        sqlStrEq r.player_sui_address addr) :=
      List.mem_filter.mpr ⟨hr', by simp [hst, hsql]⟩
    exact pickOldest_min _ _ hr r' hmem

/-- Witness for the amended theorem of C1 at a concrete two-row queue: the
returned row is the older pending row of actor `0xA`. -/
theorem claim_next_selects_oldest_pending_witness :
    rowOldB ∈ [rowOldA, rowOldB] ∧
    rowOldB.status = TransactionStatus.pending ∧
    sqlStrEq rowOldB.player_sui_address (some ("0xA")) = true ∧
    (∀ r' ∈ [rowOldA, rowOldB], r'.status = TransactionStatus.pending →
      sqlStrEq r'.player_sui_address (some ("0xA")) = true →
      rowOldB.created_at ≤ r'.created_at) :=
  (claim_next_selects_oldest_pending [rowOldA, rowOldB] (some ("0xA"))).2.1
    rowOldB (by decide)

/-! ## Spec-side classifiers (written from the specification text) -/

/-- Modelled from the spec: the backoff base the spec describes — 2000 ms
when the error matches the version-mismatch recognizer of the spec (which
includes "non-retriable") and the kind is MintBadge, else the configured
retry delay; multiplied by the attempt count. -/
def specBackoffDelay (cfg : QueueConfig) (ty : TransactionType)
    (msg : String) (attempt : Nat) : Nat :=
  (if (jsIncludes msg ("is not available for consumption") ||
       jsIncludes msg ("current version") ||
       jsIncludes msg ("non-retriable")) &&
      ty == TransactionType.mint_nft then 2000
   else cfg.retryDelayMs) * attempt

/-- Modelled from the spec: an error is suppressed (no user-facing
`result` error event) when it is version-mismatch class, or when the kind
is MintBadge and the message contains (case-insensitively) one of the four
duplicate phrases. -/
def specSuppressed (ty : TransactionType) (msg : String) : Bool :=
  (jsIncludes msg ("is not available for consumption") ||
   jsIncludes msg ("current version") ||
   jsIncludes msg ("non-retriable")) ||
  (ty == TransactionType.mint_nft &&
   (jsIncludes (jsToLower msg) "already exists" ||
    jsIncludes (jsToLower msg) "already minted" ||
    jsIncludes (jsToLower msg) "duplicate" ||
    jsIncludes (jsToLower msg) "already locked"))

theorem specSuppressed_eq (ty : TransactionType) (msg : String) :
    specSuppressed ty msg =
      (isNftAlreadyExistsErr ty msg || isVersionMismatchErr msg) := by
  unfold specSuppressed isNftAlreadyExistsErr isVersionMismatchErr
  generalize jsIncludes msg ("is not available for consumption") = a
  generalize jsIncludes msg ("current version") = b
  generalize jsIncludes msg ("non-retriable") = c
  generalize (ty == TransactionType.mint_nft) = d
  generalize jsIncludes (jsToLower msg) "already exists" = e
  generalize jsIncludes (jsToLower msg) "already minted" = f
  generalize jsIncludes (jsToLower msg) "duplicate" = g
  generalize jsIncludes (jsToLower msg) "already locked" = i
  revert a b c d e f g i
  decide

/-- Closed form of the events emitted by the failure branch. -/
theorem handleFailure_events (cfg : QueueConfig) (pa : String)
    (q : List QueueRow) (t : QueueRow) (msg : String) :
    (handleFailure cfg pa q t msg).2.1 =
      if cfg.maxRetries ≤ t.retries + 1 ∧
         (isNftAlreadyExistsErr t.transaction_type msg ||
          isVersionMismatchErr msg) = false then
        [Emitted.resultError ("player:" ++ pa) t.id msg]
      else [] := by
  unfold handleFailure
  by_cases h1 : t.retries + 1 ≥ cfg.maxRetries
  · by_cases h2 : (isNftAlreadyExistsErr t.transaction_type msg ||
        isVersionMismatchErr msg) = true
    · rw [← Bool.not_or]
      simp [h1, h2]
    · rw [← Bool.not_or]
      simp only [Bool.not_eq_true] at h2
      simp [h1, h2]
  · have h1' : ¬ (cfg.maxRetries ≤ t.retries + 1) := h1
    simp [h1, h1']

/-- Closed form of the backoff sleep computed by the failure branch. -/
theorem handleFailure_sleep (cfg : QueueConfig) (pa : String)
    (q : List QueueRow) (t : QueueRow) (msg : String) :
    (handleFailure cfg pa q t msg).2.2 =
      if cfg.maxRetries ≤ t.retries + 1 then none
      else some ((if isVersionMismatchBackoffErr msg &&
            t.transaction_type == TransactionType.mint_nft then 2000
          else cfg.retryDelayMs) * (t.retries + 1)) := by
  unfold handleFailure
  by_cases h1 : t.retries + 1 ≥ cfg.maxRetries <;> simp [h1]

def rowMintR0 : QueueRow :=
  ⟨"m1", TransactionType.mint_nft, some ("0xA"), none, some ("p1"),
   TransactionStatus.processing,
   ⟨some ("first_game"), none, some ("First game"), none⟩, none, 0, 0⟩

/-- Claim C2, counterexample: on the message "non-retriable" (which the
version-mismatch recognizer of the spec matches) with a MintBadge intent, the
code sleeps `retryDelayMs * attempt` (5000 ms), not the 2000 ms base the
claim demands: the backoff classifier in the code omits "non-retriable". -/
theorem backoff_base_counterexample :
    ¬ (∀ (cfg : QueueConfig) (pa : String) (q : List QueueRow)
        (t : QueueRow) (msg : String),
        t.retries + 1 < cfg.maxRetries →
        (handleFailure cfg pa q t msg).2.2 =
          some (specBackoffDelay cfg t.transaction_type msg (t.retries + 1))) := by
  intro h
  have hx := h ⟨3, 5000⟩ "0xA" [] rowMintR0 ("non-retriable") (by decide)
  exact absurd hx (by decide)

/-- Claim C2 (amended): below the retry cap the worker sleeps exactly
`base * attempt` with `attempt = retries + 1`, where `base = 2000` ms iff
the message contains "is not available for consumption" or "current
version" (the backoff classifier does NOT match "non-retriable") and the
kind is `mint_nft`, and `base = cfg.retryDelayMs` otherwise; no event is
emitted on that path. -/
theorem retry_backoff_linear (cfg : QueueConfig) (pa : String)
    (q : List QueueRow) (t : QueueRow) (msg : String)
    (h : t.retries + 1 < cfg.maxRetries) :
    (handleFailure cfg pa q t msg).2.2 =
      some ((if (jsIncludes msg ("is not available for consumption") ||
            jsIncludes msg ("current version")) &&
            t.transaction_type == TransactionType.mint_nft then 2000
          else cfg.retryDelayMs) * (t.retries + 1)) ∧
    (handleFailure cfg pa q t msg).2.1 = [] := by
  have h1 : ¬ (cfg.maxRetries ≤ t.retries + 1) := by omega
  constructor
  · rw [handleFailure_sleep]
    simp only [h1, if_false]
    rfl
  · rw [handleFailure_events]
    simp [h1]

/-- Witness for the amended theorem of C2: a genuine version-mismatch message on
a MintBadge intent at attempt 1 sleeps 2000 ms. -/
theorem retry_backoff_linear_witness :
    rowMintR0.retries + 1 < (⟨3, 5000⟩ : QueueConfig).maxRetries ∧
    ((handleFailure ⟨3, 5000⟩ "0xA" [] rowMintR0
        ("Object is not available for consumption")).2.2 =
      some ((if (jsIncludes ("Object is not available for consumption")
            "is not available for consumption" ||
            jsIncludes ("Object is not available for consumption")
            "current version") &&
            rowMintR0.transaction_type == TransactionType.mint_nft then 2000
          else (5000 : Nat)) * (rowMintR0.retries + 1)) ∧
     (handleFailure ⟨3, 5000⟩ "0xA" [] rowMintR0
        ("Object is not available for consumption")).2.1 = []) :=
  ⟨by decide, retry_backoff_linear ⟨3, 5000⟩ "0xA" [] rowMintR0
    ("Object is not available for consumption") (by decide)⟩

/-- Claim C5: at the retry cap, a `transaction:result` event with status
error is emitted iff the final error is not suppressed (version-mismatch
class for any kind, or the MintBadge duplicate phrases, matched
case-insensitively); in particular a version-mismatch failure never emits
a result-error event, at any retry count. -/
theorem error_event_iff_not_suppressed (cfg : QueueConfig) (pa : String)
    (q : List QueueRow) (t : QueueRow) (msg : String) :
    ((∃ room m, Emitted.resultError room t.id m ∈
        (handleFailure cfg pa q t msg).2.1) ↔
      (cfg.maxRetries ≤ t.retries + 1 ∧
       specSuppressed t.transaction_type msg = false))
    ∧ (isVersionMismatchErr msg = true →
        ∀ room txid m, Emitted.resultError room txid m ∉
          (handleFailure cfg pa q t msg).2.1) := by
  rw [specSuppressed_eq]
  constructor
  · rw [handleFailure_events]
    by_cases hc : cfg.maxRetries ≤ t.retries + 1 ∧
        (isNftAlreadyExistsErr t.transaction_type msg ||
         isVersionMismatchErr msg) = false
    · rw [if_pos hc]
      constructor
      · intro _; exact hc
      · intro _; exact ⟨"player:" ++ pa, msg, by simp⟩
    · rw [if_neg hc]
      constructor
      · rintro ⟨room, m, hmem⟩; simp at hmem
      · intro hx; exact absurd hx hc
  · intro hvm room txid m
    rw [handleFailure_events]
    have : (isNftAlreadyExistsErr t.transaction_type msg ||
        isVersionMismatchErr msg) = true := by simp [hvm]
    simp [this]

/-- Witness for C5 at a concrete input: an unsuppressed error at the cap
does emit the result-error event. -/
theorem error_event_iff_not_suppressed_witness :
    ∃ room m, Emitted.resultError room rowOldA.id m ∈
      (handleFailure ⟨1, 5000⟩ "0xA" [] rowOldA ("boom")).2.1 :=
  (error_event_iff_not_suppressed ⟨1, 5000⟩ "0xA" [] rowOldA ("boom")).1.mpr
    ⟨by decide, by decide⟩

instance {ε α : Type} [DecidableEq ε] [DecidableEq α] :
    DecidableEq (Except ε α) := fun a b =>
  match a, b with
  | Except.ok x, Except.ok y =>
    if h : x = y then Decidable.isTrue (by rw [h])
    else Decidable.isFalse (by intro hc; cases hc; exact h rfl)
  | Except.error x, Except.error y =>
    if h : x = y then Decidable.isTrue (by rw [h])
    else Decidable.isFalse (by intro hc; cases hc; exact h rfl)
  | Except.ok _, Except.error _ => Decidable.isFalse (by intro hc; cases hc)
  | Except.error _, Except.ok _ => Decidable.isFalse (by intro hc; cases hc)

def rowMintNoPid : QueueRow :=
  ⟨"t1", TransactionType.mint_nft, some ("0xA"), none, none,
   TransactionStatus.pending, ⟨some ("first_game"), none, none, none⟩,
   none, 0, 0⟩

/-- Claim C4, counterexample: when `player_id` is null the duplicate
pre-check of `addToQueue` is skipped (the JS guard `playerSuiAddress &&
playerId` is falsy), so a second `mint_nft` intent with the same
`(player_sui_address, player_id, badgeType)` triple IS inserted even
though a pending row with that triple already exists. -/
theorem mint_dedup_counterexample :
    ¬ (∀ (q : List QueueRow) (now : Nat) (id : String) (addr : Option String)
        (data : TransactionData) (gameId playerId : Option String),
        (∃ r ∈ q, r.transaction_type = TransactionType.mint_nft ∧
          r.player_sui_address = addr ∧ r.player_id = playerId ∧
          r.transaction_data.badgeType = data.badgeType ∧
          (r.status = TransactionStatus.pending ∨
           r.status = TransactionStatus.processing ∨
           r.status = TransactionStatus.completed)) →
        addToQueue q now id TransactionType.mint_nft addr data gameId playerId =
          Except.ok q) := by
  intro h
  have hx := h [rowMintNoPid] 1 ("t2") (some ("0xA"))
    ⟨some ("first_game"), none, none, none⟩ none none (by decide)
  exact absurd hx (by decide)

/-- Claim C4 (amended): `addToQueue` is idempotent for `mint_nft` whenever
the address, player id and badge type are all present and non-empty: if the
queue already holds a `mint_nft` row with that triple in status pending,
processing or completed, the second enqueue inserts nothing and returns
the queue unchanged.  (When any component is null or empty the pre-check
is skipped and a duplicate row can be inserted.) -/
theorem mint_dedup_idempotent (q : List QueueRow) (now : Nat) (id : String)
    (a p b : String) (data : TransactionData) (gameId : Option String)
    (ha : a ≠ "") (hp : p ≠ "") (hb : b ≠ "")
    (hdata : data.badgeType = some b)
    (hex : ∃ r ∈ q, r.transaction_type = TransactionType.mint_nft ∧
      r.player_sui_address = some a ∧ r.player_id = some p ∧
      r.transaction_data.badgeType = some b ∧
      (r.status = TransactionStatus.pending ∨
       r.status = TransactionStatus.processing ∨
       r.status = TransactionStatus.completed)) :
    addToQueue q now id TransactionType.mint_nft (some a) data gameId (some p) =
      Except.ok q := by
  rcases hex with ⟨r, hr, hty, haddr, hpid, hbt, hst⟩
  have hea : a.isEmpty = false := by
    cases hae : a.isEmpty
    · rfl
    · exact absurd ((String.isEmpty_iff a).mp hae) ha
  have hep : p.isEmpty = false := by
    cases hpe : p.isEmpty
    · rfl
    · exact absurd ((String.isEmpty_iff p).mp hpe) hp
  have heb : b.isEmpty = false := by
    cases hbe : b.isEmpty
    · rfl
    · exact absurd ((String.isEmpty_iff b).mp hbe) hb
  have t1 : jsTruthy (some a) = true := by simp [jsTruthy, hea]
  have t2 : jsTruthy (some p) = true := by simp [jsTruthy, hep]
  have t3 : jsTruthy data.badgeType = true := by
    rw [hdata]; simp [jsTruthy, heb]
  have t4 : (q.any fun r =>
      r.transaction_type == TransactionType.mint_nft &&
      sqlStrEq r.player_sui_address (some a) &&
      sqlStrEq r.player_id (some p) &&
      sqlStrEq r.transaction_data.badgeType data.badgeType &&
      (r.status == TransactionStatus.pending ||
       r.status == TransactionStatus.processing ||
       r.status == TransactionStatus.completed)) = true := by
    refine List.any_eq_true.mpr ⟨r, hr, ?_⟩
    rcases hst with h1 | h1 | h1 <;>
      simp [hty, haddr, hpid, hbt, hdata, sqlStrEq, h1]
  unfold addToQueue
  simp [t1, t2, t3, t4]

/-- Witness for the amended theorem of C4 at a concrete queue. -/
theorem mint_dedup_idempotent_witness :
    addToQueue [rowMintR0] 7 ("m2") TransactionType.mint_nft (some ("0xA"))
      ⟨some ("first_game"), none, none, none⟩ none (some ("p1")) =
      Except.ok [rowMintR0] :=
  mint_dedup_idempotent [rowMintR0] 7 ("m2") "0xA" "p1" "first_game"
    ⟨some ("first_game"), none, none, none⟩ none
    (by decide) (by decide) (by decide) rfl
    ⟨rowMintR0, by decide, rfl, rfl, rfl, rfl, Or.inr (Or.inl rfl)⟩

/-! ## Preservation lemmas for rows the worker does not touch -/

theorem mem_updateTransactionStatus_of_ne {q : List QueueRow} {id : String}
    {st : TransactionStatus} {em : Option String} {r : QueueRow}
    (hr : r ∈ q) (hne : r.id ≠ id) :
    r ∈ updateTransactionStatus q id st em := by
  unfold updateTransactionStatus
  refine List.mem_map.mpr ⟨r, hr, ?_⟩
  simp [hne]

theorem mem_incrementRetries_of_ne {q : List QueueRow} {id : String}
    {r : QueueRow} (hr : r ∈ q) (hne : r.id ≠ id) :
    r ∈ incrementRetries q id := by
  unfold incrementRetries
  refine List.mem_map.mpr ⟨r, hr, ?_⟩
  simp [hne]

theorem mem_deleteTransaction_of_ne {q : List QueueRow} {id : String}
    {r : QueueRow} (hr : r ∈ q) (hne : r.id ≠ id) :
    r ∈ deleteTransaction q id := by
  unfold deleteTransaction
  exact List.mem_filter.mpr ⟨hr, by simp [hne]⟩

theorem mem_handleFailure_of_ne {cfg : QueueConfig} {pa : String}
    {q : List QueueRow} {t r : QueueRow} {msg : String}
    (hr : r ∈ q) (hne : r.id ≠ t.id) :
    r ∈ (handleFailure cfg pa q t msg).1 := by
  unfold handleFailure
  by_cases h1 : t.retries + 1 ≥ cfg.maxRetries
  · simp only [h1, if_true]
    by_cases h2 : t.transaction_type != TransactionType.mint_nft
    · simp only [h2, if_true]
      exact mem_deleteTransaction_of_ne
        (mem_updateTransactionStatus_of_ne
          (mem_incrementRetries_of_ne hr hne) hne) hne
    · simp only [h2, if_false]
      exact mem_updateTransactionStatus_of_ne
        (mem_incrementRetries_of_ne hr hne) hne
  · simp only [h1, if_false]
    exact mem_updateTransactionStatus_of_ne
      (mem_incrementRetries_of_ne hr hne) hne

/-- Claim C10: a queue row whose `player_sui_address` is NULL is invisible
to the dispatcher: the active-actor scan only produces addresses of
non-NULL pending rows, `getNextPendingTransaction` can never return the
row for any parameter (SQL `=` on NULL matches nothing), and one worker
iteration leaves the row untouched in the queue whatever its outcome. -/
theorem null_actor_rows_never_processed (cfg : QueueConfig)
    (q : List QueueRow) (pa : String) (outcome : Except String Unit)
    (r : QueueRow) (hnodup : (q.map QueueRow.id).Nodup)
    (hr : r ∈ q) (hnull : r.player_sui_address = none) :
    (∀ addr, getNextPendingTransaction q addr ≠ some r)
    ∧ (∀ a ∈ getAllPlayersWithPendingTransactions q,
        ∃ r' ∈ q, r'.status = TransactionStatus.pending ∧
          r'.player_sui_address = some a)
    ∧ r ∈ (processOnce cfg q pa outcome).1 := by
  have hnever : ∀ addr, getNextPendingTransaction q addr ≠ some r := by
    intro addr h
    have hsq := (getNextPendingTransaction_some h).2.2
    have := sqlStrEq_isSome_left hsq
    rw [hnull] at this
    exact absurd this (by simp)
  refine ⟨hnever, ?_, ?_⟩
  · intro a ha
    unfold getAllPlayersWithPendingTransactions at ha
    have h1 := List.take_subset _ _ ha
    rw [List.mem_insertionSort] at h1
    rw [List.mem_dedup] at h1
    rcases List.mem_filterMap.mp h1 with ⟨r', hr', heq⟩
    have hmem := List.mem_of_mem_filter hr'
    have hpend := List.of_mem_filter hr'
    simp only [beq_iff_eq] at hpend
    exact ⟨r', hmem, hpend, heq⟩
  · unfold processOnce
    cases hclaim : getNextPendingTransaction q (jsOrNull (some pa)) with
    | none => simp [hclaim, hr]
    | some t =>
      have htq := getNextPendingTransaction_some hclaim
      have htsome := sqlStrEq_isSome_left htq.2.2
      have hne : r.id ≠ t.id := by
        intro hid
        have hrt : r = t :=
          List.inj_on_of_nodup_map hnodup hr htq.1 hid
        rw [← hrt, hnull] at htsome
        exact absurd htsome (by simp)
      simp only [hclaim]
      cases outcome with
      | ok _ =>
        exact mem_deleteTransaction_of_ne
          (mem_updateTransactionStatus_of_ne
            (mem_updateTransactionStatus_of_ne hr hne) hne) hne
      | error msg =>
        exact mem_handleFailure_of_ne
          (mem_updateTransactionStatus_of_ne hr hne) hne

def rowNullAddr : QueueRow :=
  ⟨"n1", TransactionType.end_game, none, none, none,
   TransactionStatus.pending, dataEmpty, none, 0, 0⟩

/-- Witness for C10 at a concrete queue holding a NULL-address pending row
and an ordinary row for `0xA`. -/
theorem null_actor_rows_never_processed_witness :
    (∀ addr, getNextPendingTransaction [rowNullAddr, rowOldA] addr ≠
      some rowNullAddr)
    ∧ (∀ a ∈ getAllPlayersWithPendingTransactions [rowNullAddr, rowOldA],
        ∃ r' ∈ [rowNullAddr, rowOldA],
          r'.status = TransactionStatus.pending ∧
          r'.player_sui_address = some a)
    ∧ rowNullAddr ∈
        (processOnce ⟨3, 5000⟩ [rowNullAddr, rowOldA] "0xA"
          (Except.ok ())).1 :=
  null_actor_rows_never_processed ⟨3, 5000⟩ [rowNullAddr, rowOldA] "0xA"
    (Except.ok ()) rowNullAddr (by decide) (by decide) rfl

/-! ## Reward service (`src/services/reward-service.ts`) -/

structure RewardConditions where
  check : String
  value : Nat
deriving DecidableEq

structure RewardNft where
  badge_type : String
  name : String
  description : String
  sourceUrl : String
deriving DecidableEq

structure RewardConfig where
  conditions : RewardConditions
  nft : RewardNft
deriving DecidableEq

/-- The static reward catalog (reward-service.ts lines 17-90). -/
def rewardsList : List RewardConfig :=
  [⟨⟨"first_game", 1⟩,
    ⟨"first_game", "First game",
     "Congratulations on playing your first chess game",
     "https://raw.githubusercontent.com/anthonytison/blockchess-design/refs/heads/main/badges/reward_first_game.png"⟩⟩,
   ⟨⟨"first_game_created", 1⟩,
    ⟨"first_game_created", "First game created",
     "Congratulations on creating your first chess game",
     "https://raw.githubusercontent.com/anthonytison/blockchess-design/refs/heads/main/badges/reward_first_game_created.png"⟩⟩,
   ⟨⟨"wins", 1⟩,
    ⟨"first_game_won", "First game won",
     "Congratulations on winning your first chess game",
     "https://raw.githubusercontent.com/anthonytison/blockchess-design/refs/heads/main/badges/reward_first_game_won.png"⟩⟩,
   ⟨⟨"wins", 10⟩,
    ⟨"10_games_won", "Already 10 games won",
     "Congratulations on your 10th victory",
     "https://raw.githubusercontent.com/anthonytison/blockchess-design/refs/heads/main/badges/reward_10_games_won.png"⟩⟩,
   ⟨⟨"wins", 50⟩,
    ⟨"50_games_won", "Already 50 games won",
     "Congratulations on your 50th victory",
     "https://raw.githubusercontent.com/anthonytison/blockchess-design/refs/heads/main/badges/reward_50_games_won.png"⟩⟩,
   ⟨⟨"wins", 100⟩,
    ⟨"100_games_won", "Already 100 games won",
     "Congratulations on your 100th victory",
     "https://raw.githubusercontent.com/anthonytison/blockchess-design/refs/heads/main/badges/reward_100_games_won.png"⟩⟩]

structure PlayerRow where
  id : String
  sui_address : String
deriving DecidableEq

structure RewardRow where
  player_id : String
  reward_type : String
deriving DecidableEq

/-- A row of the `vw_users_victories` view; `total` models the nullable
aggregate the code reads with `row.total || 0`. -/
structure VictoryRow where
  suid : String
  total : Option Nat
deriving DecidableEq

/-- The relational store as the reward service sees it. -/
structure RewardsDb where
  players : List PlayerRow
  rewards : List RewardRow
  victories : List VictoryRow
  noFirstGame : List String
  noFirstGameCreated : List String

/-- Source `shouldEarnReward` (reward-service.ts lines 96-210): switch on the
reward type, player lookup, existing-reward short-circuit (only when the
switch set a non-empty badge type, i.e. never for "wins"), view check for
the non-tiered kinds, and for "wins" the first catalog row not yet earned
guarded by the win count. -/
def shouldEarnReward (db : RewardsDb) (playerSuiAddress : String)
    (rewardType : String) : Option String :=
  if !(rewardType == "first_game" || rewardType == "first_game_created" ||
       rewardType == "wins") then none
  else
    let badgeType : String :=
      if rewardType == "first_game" then ("first_game")
      else if rewardType == "first_game_created" then ("first_game_created")
      else ("")
    match (db.players.filter fun p => p.sui_address == playerSuiAddress).head? with
    | none => none
    | some player =>
      if badgeType != "" &&
         db.rewards.any (fun r =>
           r.player_id == player.id && r.reward_type == badgeType) then none
      else if rewardType != "wins" then
        let view := if rewardType == "first_game" then db.noFirstGame
          else db.noFirstGameCreated
        if view.any (fun s => s == playerSuiAddress) then some badgeType
        else none
      else
        match (db.victories.filter fun v => v.suid == playerSuiAddress).head? with
        | none => none
        | some vrow =>
          let totalWins := vrow.total.getD 0
          let earnedRewardTypes :=
            (db.rewards.filter fun r => r.player_id == player.id).map
              (fun r => r.reward_type)
          let winsRewards := rewardsList.filter
            (fun r => r.conditions.check == "wins")
          match winsRewards.find?
              (fun rw => !(earnedRewardTypes.contains rw.nft.badge_type)) with
          | none => none
          | some nextReward =>
            if totalWins ≥ nextReward.conditions.value then
              some nextReward.nft.badge_type
            else none

/-- Modelled from the spec (P7): `decide("wins")` returns the
lowest-threshold wins badge, in catalog order, not yet in the reward set of the player and whose threshold is ≤ the current win count; none when the
player is missing, has no victories row, or no such badge exists. -/
def specDecideWins (db : RewardsDb) (playerSuiAddress : String) :
    Option String :=
  match (db.players.filter fun p => p.sui_address == playerSuiAddress).head? with
  | none => none
  | some player =>
    match (db.victories.filter fun v => v.suid == playerSuiAddress).head? with
    | none => none
    | some vrow =>
      let n := vrow.total.getD 0
      let earned :=
        (db.rewards.filter fun r => r.player_id == player.id).map
          (fun r => r.reward_type)
      ((rewardsList.filter fun rw =>
          rw.conditions.check == "wins" &&
          !(earned.contains rw.nft.badge_type) &&
          decide (rw.conditions.value ≤ n)).head?).map
        (fun rw => rw.nft.badge_type)

/-- The final selection of the code (first unearned wins badge, then threshold
guard) agrees with that of the spec (lowest-threshold unearned wins badge with
threshold ≤ n) because the concrete catalog is sorted by threshold. -/
theorem winsSelect_eq (e : List String) (n : Nat) :
    (match (rewardsList.filter
        (fun r => r.conditions.check == "wins")).find?
        (fun rw => !(e.contains rw.nft.badge_type)) with
     | none => none
     | some nextReward =>
       if n ≥ nextReward.conditions.value then
         some nextReward.nft.badge_type
       else none)
    = ((rewardsList.filter fun rw =>
        rw.conditions.check == "wins" &&
        !(e.contains rw.nft.badge_type) &&
        decide (rw.conditions.value ≤ n)).head?).map
      (fun rw => rw.nft.badge_type) := by
  by_cases h1 : ("first_game_won" : String) ∈ e <;>
  by_cases h2 : ("10_games_won" : String) ∈ e <;>
  by_cases h3 : ("50_games_won" : String) ∈ e <;>
  by_cases h4 : ("100_games_won" : String) ∈ e <;>
  by_cases g1 : 1 ≤ n <;>
  by_cases g2 : 10 ≤ n <;>
  by_cases g3 : 50 ≤ n <;>
  by_cases g4 : 100 ≤ n <;>
  first
  | omega
  | simp [rewardsList, h1, h2, h3, h4, g1, g2, g3, g4]

/-- Claim C3: for every store state and player, `shouldEarnReward` with
reward type "wins" computes exactly the eligibility rule of the spec: the
lowest-threshold unearned wins badge whose threshold is at most the win
count, and none when the player is absent, has no victories row, or no
badge qualifies. -/
theorem shouldEarnReward_wins_correct (db : RewardsDb) (addr : String) :
    shouldEarnReward db addr ("wins") = specDecideWins db addr := by
  change (match (db.players.filter fun p => p.sui_address == addr).head? with
    | none => none
    | some player =>
      match (db.victories.filter fun v => v.suid == addr).head? with
      | none => none
      | some vrow =>
        match (rewardsList.filter
            (fun r => r.conditions.check == "wins")).find?
            (fun rw => !(((db.rewards.filter
                (fun r => r.player_id == player.id)).map
              (fun r => r.reward_type)).contains rw.nft.badge_type)) with
        | none => none
        | some nextReward =>
          if vrow.total.getD 0 ≥ nextReward.conditions.value then
            some nextReward.nft.badge_type
          else none) = specDecideWins db addr
  unfold specDecideWins
  cases hp : (db.players.filter fun p => p.sui_address == addr).head? with
  | none => rfl
  | some player =>
    cases hv : (db.victories.filter fun v => v.suid == addr).head? with
    | none => rfl
    | some vrow =>
      exact winsSelect_eq
        ((db.rewards.filter (fun r => r.player_id == player.id)).map
          (fun r => r.reward_type)) (vrow.total.getD 0)

/-! ## Intent processor (`src/services/transaction-processor.ts`) -/

/-- Observable outcome of one `processTransaction` run: events emitted to
the event bus, `games.object_id` writes, and `rewards` upserts. -/
structure ProcResult where
  events : List Emitted
  gameWrites : List (String × String)
  rewardWrites : List (String × Option String × String)
deriving DecidableEq

/-- Source `processTransaction` (transaction-processor.ts lines 48-218).  The
chain is abstracted: `buildMint` is the result of building the mint
transaction (the other builders are total), `submit` the result of
`executeTransaction` carrying the digest, `extract` the result of
`waitForTransactionAndExtractObjectId` (which may throw or return null),
and `gameDbOk`/`rewardDbOk` say whether the store reconciliation calls
(`updateGameObjectId` / `createOrUpdateReward`) succeed.  Reconciliation
and extraction errors are swallowed by the surrounding try/catch blocks;
submit errors are rethrown wrapped. -/
def processTransaction (t : QueueRow) (buildMint : Except String Unit)
    (submit : Except String String) (extract : Except String (Option String))
    (gameDbOk rewardDbOk : Bool) : Except String ProcResult :=
  match (match t.transaction_type with
         | TransactionType.mint_nft => buildMint
         | _ => Except.ok ()) with
  | Except.error e => Except.error e
  | Except.ok _ =>
    match submit with
    | Except.error msg => Except.error ("Transaction execution failed: " ++ msg)
    | Except.ok digest =>
      let objectId : Option String :=
        match t.transaction_type with
        | TransactionType.create_game =>
          match extract with
          | Except.ok o => o
          | Except.error _ => none
        | TransactionType.mint_nft =>
          match extract with
          | Except.ok o => o
          | Except.error _ => none
        | _ => none
      let gameWrites : List (String × String) :=
        match t.transaction_type, extract, t.game_id with
        | TransactionType.create_game, Except.ok (some oid), some g =>
          if gameDbOk then [(g, oid)] else []
        | _, _, _ => []
      let rewardWrites : List (String × Option String × String) :=
        match t.transaction_type, extract, t.player_id with
        | TransactionType.mint_nft, Except.ok (some oid), some pid =>
          if rewardDbOk then [(pid, t.transaction_data.badgeType, oid)] else []
        | _, _, _ => []
      let events : List Emitted :=
        match t.player_sui_address with
        | some a =>
          if !a.isEmpty then
            [Emitted.resultSuccess ("player:" ++ a) t.id digest objectId
              (if t.transaction_type == TransactionType.mint_nft then
                t.transaction_data.name else none)
              (if t.transaction_type == TransactionType.mint_nft then
                t.transaction_data.badgeType else none)]
          else []
        | none => []
      Except.ok ⟨events, gameWrites, rewardWrites⟩

/-- Claim C6: for CreateGame and MintBadge intents whose submit succeeded,
extraction and store-reconciliation errors do not fail the intent:
`processTransaction` returns normally and the success result event is
still emitted to the room of the actor — for every extraction outcome and
every reconciliation outcome. -/
theorem reconciliation_errors_not_propagated (t : QueueRow)
    (buildMint : Except String Unit) (digest : String)
    (extract : Except String (Option String)) (gameDbOk rewardDbOk : Bool)
    (a : String)
    (hty : t.transaction_type = TransactionType.create_game ∨
           t.transaction_type = TransactionType.mint_nft)
    (hbuild : buildMint = Except.ok ())
    (haddr : t.player_sui_address = some a) (ha : a ≠ "") :
    ∃ res, processTransaction t buildMint (Except.ok digest) extract
        gameDbOk rewardDbOk = Except.ok res ∧
      ∃ oid rn bt, Emitted.resultSuccess ("player:" ++ a) t.id digest
        oid rn bt ∈ res.events := by
  have hae : a.isEmpty = false := by
    cases hx : a.isEmpty
    · rfl
    · exact absurd ((String.isEmpty_iff a).mp hx) ha
  rcases hty with h | h
  · unfold processTransaction
    rw [h, hbuild, haddr]
    refine ⟨_, rfl,
      (match extract with | Except.ok o => o | Except.error _ => none),
      none, none, ?_⟩
    simp [hae]
  · unfold processTransaction
    rw [h, hbuild, haddr]
    refine ⟨_, rfl,
      (match extract with | Except.ok o => o | Except.error _ => none),
      t.transaction_data.name, t.transaction_data.badgeType, ?_⟩
    simp [hae]

def rowCreateG1 : QueueRow :=
  ⟨"t9", TransactionType.create_game, some ("0xA"), some ("g1"), none,
   TransactionStatus.processing, dataEmpty, none, 0, 0⟩

/-- Witness for C6: a CreateGame intent whose reconciliation write fails
(`gameDbOk = false`) and whose extraction throws still completes and still
emits the success event. -/
theorem reconciliation_errors_not_propagated_witness :
    ∃ res, processTransaction rowCreateG1 (Except.ok ()) (Except.ok ("d1"))
        (Except.error ("rpc timeout")) false false = Except.ok res ∧
      ∃ oid rn bt, Emitted.resultSuccess ("player:0xA") rowCreateG1.id ("d1")
        oid rn bt ∈ res.events :=
  reconciliation_errors_not_propagated rowCreateG1 (Except.ok ()) "d1"
    (Except.error ("rpc timeout")) false false ("0xA")
    (Or.inl rfl) rfl rfl (by decide)

/-! ## make_move intake (`transaction:make_move` socket handler and
`makeMoveSchema` in `src/utils/validation.ts`) -/

/-- The validated `transaction:make_move` payload.  Per `makeMoveSchema`:
`gameObjectId` is any string (empty allowed for waiting moves), `gameId`
is OPTIONAL, `status` is an optional enum. -/
structure MakeMoveInput where
  transactionId : String
  playerAddress : String
  status : Option String
  gameObjectId : String
  isComputer : Bool
  moveSan : String
  fen : String
  moveHash : String
  gameId : Option String
deriving DecidableEq

/-- Predicate for inputs on which `makeMoveSchema.parse` succeeds. -/
def validMakeMoveB (i : MakeMoveInput) : Bool :=
  !i.transactionId.isEmpty && !i.playerAddress.isEmpty &&
  !i.moveSan.isEmpty && !i.fen.isEmpty && !i.moveHash.isEmpty &&
  (i.status == none || i.status == some ("pending") ||
   i.status == some ("waiting_for_object_id"))

/-- The `transaction:make_move` handler (sui-client.ts socket part, lines
475-511): insert as pending via `addToQueue` (passing
`makeMoveData.gameId || null`), then, when the caller indicated
`status == "waiting_for_object_id"`, update the row to that status; emit
the corresponding queued event.  A thrown error is caught and emitted as
a socket error, leaving the queue unchanged. -/
def handleMakeMove (q : List QueueRow) (now : Nat) (inp : MakeMoveInput) :
    List QueueRow × List Emitted :=
  let status : String :=
    if inp.status == some ("waiting_for_object_id") then
      ("waiting_for_object_id") else ("pending")
  match addToQueue q now inp.transactionId TransactionType.make_move
      (some inp.playerAddress) ⟨none, some inp.gameObjectId, none, inp.gameId⟩
      (jsOrNull inp.gameId) none with
  | Except.error e => (q, [Emitted.socketError e])
  | Except.ok q1 =>
    if status == "waiting_for_object_id" then
      (updateTransactionStatus q1 inp.transactionId
        TransactionStatus.waiting_for_object_id none,
       [Emitted.queued inp.transactionId ("waiting_for_object_id")])
    else (q1, [Emitted.queued inp.transactionId ("queued")])

theorem jsOrNull_idem (o : Option String) :
    jsOrNull (jsOrNull o) = jsOrNull o := by
  cases o with
  | none => rfl
  | some s =>
    unfold jsOrNull
    by_cases h : s.isEmpty <;> simp [h]

def mmInputNoGameId : MakeMoveInput :=
  ⟨"t1", "0xA", some ("waiting_for_object_id"), "", false, "e4",
   "rnbqkbnr/pppppppp/8/8/8/8/PPPPPPPP/RNBQKBNR w KQkq - 0 1", "h1", none⟩

/-- Claim C7, counterexample: `gameId` is optional in `makeMoveSchema`, so
a schema-valid make_move with the waiting indicator and no `gameId`
produces a `waiting_for_object_id` row whose `game_id` is NULL. -/
theorem waiting_row_null_game_id_counterexample :
    ¬ (∀ (q : List QueueRow) (now : Nat) (inp : MakeMoveInput),
        validMakeMoveB inp = true →
        ∀ r ∈ (handleMakeMove q now inp).1,
          r.status = TransactionStatus.waiting_for_object_id →
          r.game_id ≠ none) := by
  intro h
  exact h [] 0 mmInputNoGameId (by decide)
    ⟨"t1", TransactionType.make_move, some ("0xA"), none, none,
     TransactionStatus.waiting_for_object_id,
     ⟨none, some (""), none, none⟩, none, 0, 0⟩
    (by decide) (by decide) rfl

/-- Claim C7 (amended): a schema-valid make_move intake carrying the
waiting indicator creates exactly one new row, in status
`waiting_for_object_id`, whose `game_id` is the optional `gameId` of the payload (NULL when absent or empty — non-NULL is NOT enforced) and whose
payload `gameObjectId` is the submitted string (which may be empty or
not). -/
theorem make_move_waiting_row_shape (q : List QueueRow) (now : Nat)
    (inp : MakeMoveInput) (hv : validMakeMoveB inp = true)
    (hw : inp.status = some ("waiting_for_object_id"))
    (hfresh : ∀ r ∈ q, r.id ≠ inp.transactionId) :
    ∃ r ∈ (handleMakeMove q now inp).1,
      r.id = inp.transactionId ∧
      r.status = TransactionStatus.waiting_for_object_id ∧
      r.game_id = jsOrNull inp.gameId ∧
      r.transaction_data.gameObjectId = some inp.gameObjectId := by
  have hany : (q.any fun r => r.id == inp.transactionId) = false := by
    rw [Bool.eq_false_iff]
    intro hx
    rcases List.any_eq_true.mp hx with ⟨r, hr, he⟩
    exact hfresh r hr (by simpa using he)
  have hadd : addToQueue q now inp.transactionId TransactionType.make_move
      (some inp.playerAddress) ⟨none, some inp.gameObjectId, none, inp.gameId⟩
      (jsOrNull inp.gameId) none =
      Except.ok (q ++ [⟨inp.transactionId, TransactionType.make_move,
        some inp.playerAddress, jsOrNull (jsOrNull inp.gameId), none,
        TransactionStatus.pending,
        ⟨none, some inp.gameObjectId, none, inp.gameId⟩, none, now, 0⟩]) := by
    unfold addToQueue
    simp [hany, jsOrNull]
  unfold handleMakeMove
  rw [hadd, hw]
  simp only [beq_self_eq_true, if_true]
  refine ⟨⟨inp.transactionId, TransactionType.make_move,
    some inp.playerAddress, jsOrNull (jsOrNull inp.gameId), none,
    TransactionStatus.waiting_for_object_id,
    ⟨none, some inp.gameObjectId, none, inp.gameId⟩, none, now, 0⟩,
    ?_, rfl, rfl, jsOrNull_idem _, rfl⟩
  unfold updateTransactionStatus
  refine List.mem_map.mpr
    ⟨⟨inp.transactionId, TransactionType.make_move,
      some inp.playerAddress, jsOrNull (jsOrNull inp.gameId), none,
      TransactionStatus.pending,
      ⟨none, some inp.gameObjectId, none, inp.gameId⟩, none, now, 0⟩,
     by simp, by simp [jsTruthy]⟩

/-- Witness for the amended theorem of C7: a waiting make_move with a present
non-empty gameId yields a waiting row carrying that game id. -/
theorem make_move_waiting_row_shape_witness :
    ∃ r ∈ (handleMakeMove [] 0
        ⟨"t3", "0xA", some ("waiting_for_object_id"), "", true, "e4",
         "fen2", "h2", some ("g7")⟩).1,
      r.id = "t3" ∧
      r.status = TransactionStatus.waiting_for_object_id ∧
      r.game_id = jsOrNull (some ("g7")) ∧
      r.transaction_data.gameObjectId = some ("") :=
  make_move_waiting_row_shape [] 0
    ⟨"t3", "0xA", some ("waiting_for_object_id"), "", true, "e4",
     "fen2", "h2", some ("g7")⟩
    (by decide) rfl (by intro r hr; cases hr)

/-! ## Chain gateway polling (`waitForTransactionAndExtractObjectId`,
sui-client.ts lines 283-385) -/

structure ObjectChange where
  ctype : String
  objectType : Option String
  objectId : Option String
deriving DecidableEq

structure ChainEvent where
  etype : Option String
  parsedJson : Option (List (String × String))
deriving DecidableEq

structure TxResponse where
  effectsSuccess : Option Bool
  objectChanges : List ObjectChange
  events : List ChainEvent
deriving DecidableEq

/-- The body of one polling attempt: throw when effects report failure,
else look for a created object of a matching type, then for a
`GameCreated` / `BadgeMinted` event, else report nothing found. -/
def attemptExtract (objectType : String) (r : TxResponse) :
    Except String (Option String) :=
  if r.effectsSuccess == some false then
    Except.error ("Transaction failed")
  else
    match (r.objectChanges.find? fun c =>
        c.ctype == "created" &&
        (match c.objectType with
         | none => false
         | some t => !t.isEmpty &&
           (jsIncludes (jsToLower t) (jsToLower objectType) ||
            jsEndsWith (jsToLower t) (jsToLower objectType) ||
            (jsIncludes (jsToLower objectType) "badge" &&
             jsIncludes (jsToLower t) "badge") ||
            (jsIncludes (jsToLower objectType) "game" &&
             jsIncludes (jsToLower t) "game")))).bind
      (fun c => c.objectId) with
    | some oid => Except.ok (some oid)
    | none =>
      let gameRes : Option String :=
        if jsIncludes objectType ("Game") then
          match r.events.find? (fun e =>
              match e.etype with
              | some ty => jsIncludes ty ("GameCreated")
              | none => false) with
          | some e =>
            match e.parsedJson with
            | some kv => kv.lookup ("game_id")
            | none => none
          | none => none
        else none
      match gameRes with
      | some g => Except.ok (some g)
      | none =>
        let badgeRes : Option String :=
          if jsIncludes objectType ("badge") || jsIncludes objectType ("Badge") then
            match r.events.find? (fun e =>
                match e.etype with
                | some ty => jsIncludes ty ("BadgeMinted")
                | none => false) with
            | some e =>
              match e.parsedJson with
              | some kv => kv.lookup ("badge_id")
              | none => none
            | none => none
          else none
        match badgeRes with
        | some b => Except.ok (some b)
        | none => Except.ok none

/-- One attempt: `getTransactionBlock` (which may throw) followed by the
extraction body; a throw from either is handled by the catch of the loop. -/
def attemptOf (chain : Nat → Except String TxResponse) (oty : String)
    (i : Nat) : Except String (Option String) :=
  match chain i with
  | Except.error e => Except.error e
  | Except.ok r => attemptExtract oty r

/-- The `for (let i = 0; i < maxRetries; i++)` loop with `maxRetries = 15`:
on a found id return it; on nothing found continue IMMEDIATELY (no sleep);
on a caught error rethrow if this was the last attempt, else sleep 1 s and
continue.  Returns (result, number of polls, number of sleeps). -/
def waitLoop (chain : Nat → Except String TxResponse) (oty : String) :
    Nat → Nat → Except String (Option String) × Nat × Nat
  | _, 0 => (Except.ok none, 0, 0)
  | i, fuel+1 =>
    match attemptOf chain oty i with
    | Except.ok (some oid) => (Except.ok (some oid), 1, 0)
    | Except.ok none =>
      let rest := waitLoop chain oty (i+1) fuel
      (rest.1, rest.2.1 + 1, rest.2.2)
    | Except.error e =>
      if fuel == 0 then (Except.error e, 1, 0)
      else
        let rest := waitLoop chain oty (i+1) fuel
        (rest.1, rest.2.1 + 1, rest.2.2 + 1)

def waitForTransactionAndExtractObjectId
    (chain : Nat → Except String TxResponse) (oty : String) :
    Except String (Option String) × Nat × Nat :=
  waitLoop chain oty 0 15

theorem waitLoop_polls_le (chain : Nat → Except String TxResponse)
    (oty : String) : ∀ (fuel i : Nat),
    (waitLoop chain oty i fuel).2.1 ≤ fuel := by
  intro fuel
  induction fuel with
  | zero => intro i; simp [waitLoop]
  | succ n ih =>
    intro i
    simp only [waitLoop]
    cases attemptOf chain oty i with
    | ok o =>
      cases o with
      | some oid => simp
      | none => have := ih (i + 1); simp; omega
    | error e =>
      cases hn : (n == 0)
      · have := ih (i + 1); simp [hn]; omega
      · simp [hn]

theorem waitLoop_all_none (chain : Nat → Except String TxResponse)
    (oty : String) : ∀ (fuel i : Nat),
    (∀ j, j < fuel → attemptOf chain oty (i + j) = Except.ok none) →
    waitLoop chain oty i fuel = (Except.ok none, fuel, 0) := by
  intro fuel
  induction fuel with
  | zero => intro i _; rfl
  | succ n ih =>
    intro i h
    have h0 : attemptOf chain oty i = Except.ok none := by
      simpa using h 0 (by omega)
    have hrest : waitLoop chain oty (i + 1) n = (Except.ok none, n, 0) := by
      apply ih
      intro j hj
      have hx := h (j + 1) (by omega)
      rw [show i + (j + 1) = i + 1 + j by omega] at hx
      exact hx
    simp [waitLoop, h0, hrest]

def chainEmptyOk : Nat → Except String TxResponse :=
  fun _ => Except.ok ⟨some true, [], []⟩

/-- Claim C8, counterexample: the 1-second sleep happens only after a
FAILED (throwing) attempt; between consecutive successful-but-unmatched
polls there is no sleep at all.  With a chain that always answers with
empty effects, the loop makes 15 back-to-back polls and 0 sleeps, not the
14 sleeps that "a 1-second sleep between consecutive attempts" demands. -/
theorem wait_sleep_between_attempts_counterexample :
    ¬ (∀ (chain : Nat → Except String TxResponse) (oty : String),
        (waitForTransactionAndExtractObjectId chain oty).1 =
          Except.ok none →
        (waitForTransactionAndExtractObjectId chain oty).2.2 + 1 =
          (waitForTransactionAndExtractObjectId chain oty).2.1) := by
  intro h
  have hx := h chainEmptyOk ("::game::Game") (by decide)
  exact absurd hx (by decide)

/-- Claim C8 (amended): `waitForTransactionAndExtractObjectId` makes at
most 15 polls (never a 16th), and when every attempt polls successfully
but satisfies no success criterion it terminates returning null after
exactly 15 polls — with no sleeps, since the 1-second sleep only follows a
throwing attempt that is not the last. -/
theorem wait_and_extract_bounded (chain : Nat → Except String TxResponse)
    (oty : String) :
    (waitForTransactionAndExtractObjectId chain oty).2.1 ≤ 15
    ∧ ((∀ i, i < 15 → attemptOf chain oty i = Except.ok none) →
        waitForTransactionAndExtractObjectId chain oty =
          (Except.ok none, 15, 0)) := by
  constructor
  · exact waitLoop_polls_le chain oty 15 0
  · intro h
    apply waitLoop_all_none
    intro j hj
    simpa using h j hj

/-- Witness for the amended theorem of C8 on the always-empty chain. -/
theorem wait_and_extract_bounded_witness :
    (∀ i, i < 15 →
      attemptOf chainEmptyOk ("::game::Game") i = Except.ok none) ∧
    waitForTransactionAndExtractObjectId chainEmptyOk ("::game::Game") =
      (Except.ok none, 15, 0) :=
  ⟨by decide,
   (wait_and_extract_bounded chainEmptyOk ("::game::Game")).2 (by decide)⟩

/-! ## Sponsor keypair initialization (`getSponsorKeypair`,
sui-client.ts lines 27-84) -/

/-- The enumeration of accepted secret encodings, as printed by the hex
branch of `getSponsorKeypair`. -/
def enumeratedForms : String :=
  "Invalid SUI_SPONSOR_PRIVATE_KEY format. Expected one of:\n" ++
  "  - Mnemonic phrase (12 or 24 words)\n" ++
  "  - 64-character hex string (with or without 0x prefix)\n" ++
  "  - Bech32 format (suiprivkey...)\n"

def hexFormatError (n : Nat) : String :=
  enumeratedForms ++ "Got " ++ toString n ++ " characters."

/-- Membership in `[0-9a-fA-F]`. -/
def isHexCharJs (c : Char) : Bool :=
  c.isDigit || (97 ≤ c.toNat && c.toNat ≤ 102) ||
  (65 ≤ c.toNat && c.toNat ≤ 70)

/-- The candidate hex string after stripping an optional 0x/0X. -/
def hexBody (k : String) : String :=
  if jsStartsWith k ("0x") || jsStartsWith k ("0X") then jsSlice k 2 else k

/-- The try-catch wrapper of `getSponsorKeypair`: a thrown error is
rethrown with the fixed prefix prepended verbatim. -/
def wrapKeyErr (e : Except String String) : Except String String :=
  match e with
  | Except.ok kp => Except.ok kp
  | Except.error m =>
    Except.error ("Invalid SUI_SPONSOR_PRIVATE_KEY format: " ++ m)

/-- Source `getSponsorKeypair` with the SDK decoders abstracted:
`derive` = `Ed25519Keypair.deriveKeypair` (mnemonic), `decodeSui` =
`decodeSuiPrivateKey` + `fromSecretKey` (bech32), `fromHex` =
`fromHEX` + `fromSecretKey` on an already-validated 64-hex string. -/
def getSponsorKeypair (derive decodeSui : String → Except String String)
    (fromHex : String → String) (privateKey : Option String) :
    Except String String :=
  match privateKey with
  | none =>
    Except.error ("SUI_SPONSOR_PRIVATE_KEY environment variable is required")
  | some raw =>
    let k := jsTrim raw
    wrapKeyErr
      (if jsSplitWsCount k == 12 || jsSplitWsCount k == 24 then derive k
       else if jsStartsWith k ("suiprivkey") then decodeSui k
       else
         let hex := hexBody k
         if hex.length == 64 && hex.data.all isHexCharJs then
           Except.ok (fromHex hex)
         else Except.error (hexFormatError hex.length))

/-- Claim C9, counterexample: a corrupt bech32 secret (prefix
`suiprivkey`, body the SDK rejects) fails with the SDK message wrapped
in a fixed prefix — that message does not enumerate the three accepted
forms (the enumeration is printed only by the hex branch). -/
theorem sponsor_key_error_enumeration_counterexample :
    ¬ (∀ (derive decodeSui : String → Except String String)
        (fromHex : String → String) (k m : String),
        getSponsorKeypair derive decodeSui fromHex (some k) =
          Except.error m →
        jsIncludes m ("Mnemonic phrase") = true ∧
        jsIncludes m ("hex string") = true ∧
        jsIncludes m ("Bech32") = true) := by
  intro h
  have hx := h (fun _ => Except.error ("mnemonic fail"))
    (fun _ => Except.error ("invalid checksum"))
    (fun _ => "kp") "suiprivkeyqqqq"
    "Invalid SUI_SPONSOR_PRIVATE_KEY format: invalid checksum" (by decide)
  exact absurd hx.1 (by decide)

set_option maxRecDepth 4000 in
/-- Claim C9 (amended): `getSponsorKeypair` routes exactly three
encodings — 12/24 whitespace-separated words to the mnemonic decoder, a
`suiprivkey` prefix to the bech32 decoder, and a 64-hex-character body
(optional 0x/0X prefix) to the raw-seed path.  An input matching NONE of
the three forms fails with a message that enumerates all three accepted
forms; a corrupt mnemonic or bech32 instance instead fails with the
underlying decoder error wrapped in the fixed prefix. -/
theorem sponsor_key_classification
    (derive decodeSui : String → Except String String)
    (fromHex : String → String) (k : String) :
    ((jsSplitWsCount (jsTrim k) = 12 ∨ jsSplitWsCount (jsTrim k) = 24) →
      getSponsorKeypair derive decodeSui fromHex (some k) =
        wrapKeyErr (derive (jsTrim k)))
    ∧ (jsSplitWsCount (jsTrim k) ≠ 12 → jsSplitWsCount (jsTrim k) ≠ 24 →
       jsStartsWith (jsTrim k) "suiprivkey" = true →
      getSponsorKeypair derive decodeSui fromHex (some k) =
        wrapKeyErr (decodeSui (jsTrim k)))
    ∧ (jsSplitWsCount (jsTrim k) ≠ 12 → jsSplitWsCount (jsTrim k) ≠ 24 →
       jsStartsWith (jsTrim k) "suiprivkey" = false →
       (hexBody (jsTrim k)).length = 64 →
       (hexBody (jsTrim k)).data.all isHexCharJs = true →
      getSponsorKeypair derive decodeSui fromHex (some k) =
        Except.ok (fromHex (hexBody (jsTrim k))))
    ∧ (jsSplitWsCount (jsTrim k) ≠ 12 → jsSplitWsCount (jsTrim k) ≠ 24 →
       jsStartsWith (jsTrim k) "suiprivkey" = false →
       ¬((hexBody (jsTrim k)).length = 64 ∧
         (hexBody (jsTrim k)).data.all isHexCharJs = true) →
      getSponsorKeypair derive decodeSui fromHex (some k) =
        Except.error ("Invalid SUI_SPONSOR_PRIVATE_KEY format: " ++
          enumeratedForms ++ "Got " ++
          toString (hexBody (jsTrim k)).length ++ " characters."))
    ∧ jsIncludes enumeratedForms ("Mnemonic phrase (12 or 24 words)") = true
    ∧ jsIncludes enumeratedForms
        ("64-character hex string (with or without 0x prefix)") = true
    ∧ jsIncludes enumeratedForms ("Bech32 format (suiprivkey...)") = true := by
  refine ⟨?_, ?_, ?_, ?_, by decide, by decide, by decide⟩
  · intro h
    unfold getSponsorKeypair
    rcases h with h | h <;> simp [h]
  · intro h12 h24 hpre
    unfold getSponsorKeypair
    simp [beq_iff_eq, h12, h24, hpre]
  · intro h12 h24 hpre hlen hall
    unfold getSponsorKeypair
    simp [beq_iff_eq, h12, h24, hpre, hlen, hall, wrapKeyErr]
  · intro h12 h24 hpre hbad
    have hfalse : ((hexBody (jsTrim k)).length == 64 &&
        (hexBody (jsTrim k)).data.all isHexCharJs) = false := by
      cases hx : ((hexBody (jsTrim k)).length == 64 &&
          (hexBody (jsTrim k)).data.all isHexCharJs)
      · rfl
      · exfalso
        simp only [Bool.and_eq_true, beq_iff_eq] at hx
        exact hbad hx
    unfold getSponsorKeypair
    simp [beq_iff_eq, h12, h24, hpre, hfalse, wrapKeyErr, hexFormatError,
      String.append_assoc]

/-- Witness for the amended theorem of C9: the input "zz" matches none of the
three forms and fails with the enumerating message. -/
theorem sponsor_key_classification_witness :
    getSponsorKeypair (fun _ => Except.error ("m"))
      (fun _ => Except.error ("b")) (fun _ => "kp") (some ("zz")) =
      Except.error ("Invalid SUI_SPONSOR_PRIVATE_KEY format: " ++
        enumeratedForms ++ "Got " ++
        toString (hexBody (jsTrim ("zz"))).length ++ " characters.") :=
  (sponsor_key_classification (fun _ => Except.error ("m"))
    (fun _ => Except.error ("b")) (fun _ => "kp") "zz").2.2.2.1
    (by decide) (by decide) (by decide) (by decide)
